import Mathlib

/-!
Verification of the statement-tree model of `ts-dci-ast-resast`.

The development embeds the three source files of the repository:

* `src/spanned/stmt.rs` — the spanned statement tree, its `Node::loc`
  implementations, and the `From` conversions into the allocated tree
  (`crate::stmt::*`);
* `src/spanned/dci.rs` — the spanned role/property container and its
  `IntoAllocated` implementation;
* `src/dci.rs` — the allocated role/property container.

Constructs that live outside these files (expressions, patterns,
identifiers, declarations, the `Slice` leaf token, the `ProgramPart`
wrapper, `VarDecls`, `ListEntry`) are external collaborators; they are
modelled from the contract the specification states for them (each
carries an intrinsic source location, and each converts to an allocated
image independent of its location data).
-/

/-- A half-open `[start, end)` byte-offset pair.  The source calls the
second field `end`, which is a reserved word in Lean, so it is named
`stop` here. -/
structure SourceLocation where
  start : Nat
  stop : Nat
deriving DecidableEq, Repr

/-- Modelled from the spec: a leaf token (`Slice`) carries an intrinsic
source location; its raw text plays no role in any claim, so only the
location is kept. -/
structure Slice where
  loc : SourceLocation
deriving DecidableEq, Repr

/-- Modelled from the spec: an external expression node.  It exposes a
location (the `Node` capability) and an abstract payload `val` standing
for its semantic content, which is what the conversion layer keeps. -/
structure Expr where
  loc : SourceLocation
  val : Nat
deriving DecidableEq, Repr

/-- Modelled from the spec: an external identifier node with a location
and its name. -/
structure Ident where
  loc : SourceLocation
  name : String
deriving DecidableEq, Repr

/-- Modelled from the spec: an external pattern node. -/
structure Pat where
  loc : SourceLocation
  val : Nat
deriving DecidableEq, Repr

/-- Modelled from the spec: an external declaration node (the
non-statement alternative of a program part). -/
structure Decl where
  loc : SourceLocation
  val : Nat
deriving DecidableEq, Repr

/-- Modelled from the spec: an external variable declarator node. -/
structure VarDecl where
  loc : SourceLocation
  val : Nat
deriving DecidableEq, Repr

/-- Modelled from the spec: the external `var`/`let`/`const` kind
keyword node. -/
structure VarKind where
  loc : SourceLocation
  val : Nat
deriving DecidableEq, Repr

/-- Allocated image of an external expression. -/
abbrev AExpr := Nat

/-- Allocated image of an external identifier. -/
abbrev AIdent := String

/-- Allocated image of an external pattern. -/
abbrev APat := Nat

/-- Allocated image of an external declaration. -/
abbrev ADecl := Nat

/-- Allocated image of an external variable declarator. -/
abbrev AVarDecl := Nat

/-- Allocated image of an external declaration-kind keyword. -/
abbrev AVarKind := Nat

/-- Modelled from the spec: external expressions convert by dropping
their location and keeping their content. -/
def Expr.toAllocated (e : Expr) : AExpr := e.val

/-- Modelled from the spec: external identifiers convert to their name. -/
def Ident.toAllocated (i : Ident) : AIdent := i.name

/-- Modelled from the spec: external patterns convert by dropping their
location. -/
def Pat.toAllocated (p : Pat) : APat := p.val

/-- Modelled from the spec: external declarations convert by dropping
their location. -/
def Decl.toAllocated (d : Decl) : ADecl := d.val

/-- Modelled from the spec: external declarators convert by dropping
their location. -/
def VarDecl.toAllocated (d : VarDecl) : AVarDecl := d.val

/-- Modelled from the spec: declaration-kind keywords convert by
dropping their location. -/
def VarKind.toAllocated (k : VarKind) : AVarKind := k.val

/-- Modelled from the spec: the list-entry wrapper pairing a declarator
with its optional separator token (`ListEntry` in the parent crate). -/
structure ListEntry where
  item : VarDecl
  comma : Option Slice
deriving DecidableEq, Repr

/-- Modelled from the spec: the location a list entry reports is the
extent of its declarator (per the §4.1 table, declaration lists end at
the last declarator). -/
def ListEntry.loc (e : ListEntry) : SourceLocation := e.item.loc

/-- Modelled from the spec: the declaration list of a `var` statement —
a declaration-kind keyword followed by the wrapped declarators
(`VarDecls` in the parent crate). -/
structure VarDecls where
  keyword : VarKind
  decls : List ListEntry
deriving DecidableEq, Repr

/-- Modelled from the spec (§4.1 Var row): starts at the first
declaration-list token and ends at the last declarator, or at the
keyword when the list is empty. -/
def VarDecls.loc (d : VarDecls) : SourceLocation :=
  match d.decls.getLast? with
  | some last => ⟨d.keyword.loc.start, last.loc.stop⟩
  | none => d.keyword.loc

/-- The left-most triple of a C-style for-loop parenthetical
(`LoopInit` in `src/spanned/stmt.rs`). -/
inductive LoopInit where
  | Variable (kind : VarKind) (decls : List ListEntry)
  | Expr (e : Expr)
deriving DecidableEq, Repr

/-- `Node for LoopInit` (`src/spanned/stmt.rs` lines 813–829). -/
def LoopInit.loc : LoopInit → SourceLocation
  | .Variable kind decls =>
      match decls.getLast? with
      | some last => ⟨kind.loc.start, last.loc.stop⟩
      | none => kind.loc
  | .Expr e => e.loc

/-- The left-hand side of a for-in or for-of loop header
(`LoopLeft` in `src/spanned/stmt.rs`). -/
inductive LoopLeft where
  | Expr (e : Expr)
  | Variable (kind : VarKind) (decl : VarDecl)
  | Pat (p : Pat)
deriving DecidableEq, Repr

/-- `Node for LoopLeft` (`src/spanned/stmt.rs` lines 944–955). -/
def LoopLeft.loc : LoopLeft → SourceLocation
  | .Expr e => e.loc
  | .Variable kind decl => ⟨kind.loc.start, decl.loc.stop⟩
  | .Pat p => p.loc

/-- The parenthesised catch parameter (`CatchArg` in
`src/spanned/stmt.rs`). -/
structure CatchArg where
  open_paren : Slice
  param : Pat
  close_paren : Slice
deriving DecidableEq, Repr

/-- `Node for CatchArg` (`src/spanned/stmt.rs` lines 657–664). -/
def CatchArg.loc (c : CatchArg) : SourceLocation :=
  ⟨c.open_paren.loc.start, c.close_paren.loc.stop⟩

mutual

/-- The spanned statement sum type (`Stmt` in `src/spanned/stmt.rs`
lines 12–201); each variant keeps its delimiter, keyword and optional
terminator tokens. -/
inductive Stmt where
| Expr (expr : Expr) (semi_colon : Option Slice)
| Block (inner : BlockStmt)
| Empty (inner : Slice)
| Debugger (keyword : Slice) (semi_colon : Option Slice)
| With (inner : WithStmt)
| Return (keyword : Slice) (value : Option Expr) (semi_colon : Option Slice)
| Labeled (inner : LabeledStmt)
| Break (keyword : Slice) (label : Option Ident) (semi_colon : Option Slice)
| Continue (keyword : Slice) (label : Option Ident) (semi_colon : Option Slice)
| If (inner : IfStmt)
| Switch (inner : SwitchStmt)
| Throw (keyword : Slice) (expr : Expr) (semi_colon : Option Slice)
| Try (inner : TryStmt)
| While (inner : WhileStmt)
| DoWhile (inner : DoWhileStmt)
| For (inner : ForStmt)
| ForIn (inner : ForInStmt)
| ForOf (inner : ForOfStmt)
| Var (decls : VarDecls) (semi_colon : Option Slice)

/-- Modelled from the spec: the uniform wrapper union letting
statements and declarations appear interchangeably in sequence
positions (`ProgramPart` in the parent crate). -/
inductive ProgramPart where
| Decl (d : Decl)
| Stmt (s : Stmt)

/-- `BlockStmt` (`src/spanned/stmt.rs` lines 558–563). -/
inductive BlockStmt where
| mk (open_brace : Slice) (stmts : List ProgramPart) (close_brace : Slice)

/-- `WithStmt` (`src/spanned/stmt.rs` lines 366–373). -/
inductive WithStmt where
| mk (keyword : Slice) (open_paren : Slice) (object : Expr)
    (close_paren : Slice) (body : Stmt)

/-- `LabeledStmt` (`src/spanned/stmt.rs` lines 402–407). -/
inductive LabeledStmt where
| mk (label : Ident) (colon : Slice) (body : Stmt)

/-- `IfStmt` (`src/spanned/stmt.rs` lines 435–443). -/
inductive IfStmt where
| mk (keyword : Slice) (open_paren : Slice) (test : Expr)
    (close_paren : Slice) (consequent : Stmt) (alternate : Option ElseStmt)

/-- `ElseStmt` (`src/spanned/stmt.rs` lines 467–471). -/
inductive ElseStmt where
| mk (keyword : Slice) (body : Stmt)

/-- `SwitchStmt` (`src/spanned/stmt.rs` lines 496–505). -/
inductive SwitchStmt where
| mk (keyword : Slice) (open_paren : Slice) (discriminant : Expr)
    (close_paren : Slice) (open_brace : Slice) (cases : List SwitchCase)
    (close_brace : Slice)

/-- `SwitchCase` (`src/spanned/stmt.rs` lines 526–532). -/
inductive SwitchCase where
| mk (keyword : Slice) (test : Option Expr) (colon : Slice)
    (consequent : List ProgramPart)

/-- `TryStmt` (`src/spanned/stmt.rs` lines 590–596). -/
inductive TryStmt where
| mk (keyword : Slice) (block : BlockStmt) (handler : Option CatchClause)
    (finalizer : Option FinallyClause)

/-- `CatchClause` (`src/spanned/stmt.rs` lines 625–630). -/
inductive CatchClause where
| mk (keyword : Slice) (param : Option CatchArg) (body : BlockStmt)

/-- `FinallyClause` (`src/spanned/stmt.rs` lines 666–670). -/
inductive FinallyClause where
| mk (keyword : Slice) (body : BlockStmt)

/-- `WhileStmt` (`src/spanned/stmt.rs` lines 701–708). -/
inductive WhileStmt where
| mk (keyword : Slice) (open_paren : Slice) (test : Expr)
    (close_paren : Slice) (body : Stmt)

/-- `DoWhileStmt` (`src/spanned/stmt.rs` lines 734–743). -/
inductive DoWhileStmt where
| mk (keyword_do : Slice) (body : Stmt) (keyword_while : Slice)
    (open_paren : Slice) (test : Expr) (close_paren : Slice)
    (semi_colon : Option Slice)

/-- `ForStmt` (`src/spanned/stmt.rs` lines 770–781). -/
inductive ForStmt where
| mk (keyword : Slice) (open_paren : Slice) (init : Option LoopInit)
    (semi1 : Slice) (test : Option Expr) (semi2 : Slice)
    (update : Option Expr) (close_paren : Slice) (body : Stmt)

/-- `ForInStmt` (`src/spanned/stmt.rs` lines 855–864). -/
inductive ForInStmt where
| mk (keyword_for : Slice) (open_paren : Slice) (left : LoopLeft)
    (keyword_in : Slice) (right : Expr) (close_paren : Slice) (body : Stmt)

/-- `ForOfStmt` (`src/spanned/stmt.rs` lines 893–903). -/
inductive ForOfStmt where
| mk (keyword_for : Slice) (open_paren : Slice) (left : LoopLeft)
    (keyword_of : Slice) (right : Expr) (close_paren : Slice) (body : Stmt)
    (is_await : Bool)

end

mutual

/-- `Node for Stmt` (`src/spanned/stmt.rs` lines 231–351). -/
def Stmt.loc : Stmt → SourceLocation
| .Expr expr semi_colon =>
    match semi_colon with
    | some semi => ⟨expr.loc.start, semi.loc.stop⟩
    | none => expr.loc
| .Block inner => inner.loc
| .Empty inner => inner.loc
| .Debugger keyword semi_colon =>
    match semi_colon with
    | some semi => ⟨keyword.loc.start, semi.loc.stop⟩
    | none => keyword.loc
| .With inner => inner.loc
| .Return keyword value semi_colon =>
    match semi_colon with
    | some semi => ⟨keyword.loc.start, semi.loc.stop⟩
    | none =>
        match value with
        | some value => ⟨keyword.loc.start, value.loc.stop⟩
        | none => keyword.loc
| .Labeled inner => inner.loc
| .Break keyword label semi_colon =>
    match semi_colon with
    | some semi => ⟨keyword.loc.start, semi.loc.stop⟩
    | none =>
        match label with
        | some label => ⟨keyword.loc.start, label.loc.stop⟩
        | none => keyword.loc
| .Continue keyword label semi_colon =>
    match semi_colon with
    | some semi => ⟨keyword.loc.start, semi.loc.stop⟩
    | none =>
        match label with
        | some label => ⟨keyword.loc.start, label.loc.stop⟩
        | none => keyword.loc
| .If inner => inner.loc
| .Switch inner => inner.loc
| .Throw keyword expr semi_colon =>
    match semi_colon with
    | some semi => ⟨keyword.loc.start, semi.loc.stop⟩
    | none => ⟨keyword.loc.start, expr.loc.stop⟩
| .Try inner => inner.loc
| .While inner => inner.loc
| .DoWhile inner => inner.loc
| .For inner => inner.loc
| .ForIn inner => inner.loc
| .ForOf inner => inner.loc
| .Var decls semi_colon =>
    match semi_colon with
    | some semi => ⟨decls.loc.start, semi.loc.stop⟩
    | none => decls.loc

/-- `Node for BlockStmt` (`src/spanned/stmt.rs` lines 571–578). -/
def BlockStmt.loc : BlockStmt → SourceLocation
| .mk open_brace _ close_brace => ⟨open_brace.loc.start, close_brace.loc.stop⟩

/-- `Node for WithStmt` (`src/spanned/stmt.rs` lines 375–382). -/
def WithStmt.loc : WithStmt → SourceLocation
| .mk keyword _ _ _ body => ⟨keyword.loc.start, body.loc.stop⟩

/-- `Node for LabeledStmt` (`src/spanned/stmt.rs` lines 409–416). -/
def LabeledStmt.loc : LabeledStmt → SourceLocation
| .mk label _ body => ⟨label.loc.start, body.loc.stop⟩

/-- `Node for IfStmt` (`src/spanned/stmt.rs` lines 445–455). -/
def IfStmt.loc : IfStmt → SourceLocation
| .mk keyword _ _ _ consequent alternate =>
    match alternate with
    | some alt => ⟨keyword.loc.start, alt.loc.stop⟩
    | none => ⟨keyword.loc.start, consequent.loc.stop⟩

/-- `Node for ElseStmt` (`src/spanned/stmt.rs` lines 473–480). -/
def ElseStmt.loc : ElseStmt → SourceLocation
| .mk keyword body => ⟨keyword.loc.start, body.loc.stop⟩

/-- `Node for SwitchStmt` (`src/spanned/stmt.rs` lines 507–514): the
reported span runs from the `switch` keyword to the closing parenthesis
of the discriminant only. -/
def SwitchStmt.loc : SwitchStmt → SourceLocation
| .mk keyword _ _ close_paren _ _ _ => ⟨keyword.loc.start, close_paren.loc.stop⟩

/-- `Node for SwitchCase` (`src/spanned/stmt.rs` lines 534–546). -/
def SwitchCase.loc : SwitchCase → SourceLocation
| .mk keyword _ colon consequent =>
    match lastPartLoc consequent with
    | some l => ⟨keyword.loc.start, l.stop⟩
    | none => ⟨keyword.loc.start, colon.loc.stop⟩

/-- Location of the last program part in a sequence, if any (the
`self.consequent.last()` lookup in `SwitchCase::loc`). -/
def lastPartLoc : List ProgramPart → Option SourceLocation
| [] => none
| [p] => some p.loc
| _ :: q :: rest => lastPartLoc (q :: rest)

/-- Modelled from the spec: a program part reports the location of the
statement or declaration it wraps. -/
def ProgramPart.loc : ProgramPart → SourceLocation
| .Decl d => d.loc
| .Stmt s => s.loc

/-- `Node for TryStmt` (`src/spanned/stmt.rs` lines 598–612). -/
def TryStmt.loc : TryStmt → SourceLocation
| .mk keyword block handler finalizer =>
    match finalizer with
    | some f => ⟨keyword.loc.start, f.loc.stop⟩
    | none =>
        match handler with
        | some c => ⟨keyword.loc.start, c.loc.stop⟩
        | none => ⟨keyword.loc.start, block.loc.stop⟩

/-- `Node for CatchClause` (`src/spanned/stmt.rs` lines 632–639). -/
def CatchClause.loc : CatchClause → SourceLocation
| .mk keyword _ body => ⟨keyword.loc.start, body.loc.stop⟩

/-- `Node for FinallyClause` (`src/spanned/stmt.rs` lines 672–679). -/
def FinallyClause.loc : FinallyClause → SourceLocation
| .mk keyword body => ⟨keyword.loc.start, body.loc.stop⟩

/-- `Node for WhileStmt` (`src/spanned/stmt.rs` lines 710–717). -/
def WhileStmt.loc : WhileStmt → SourceLocation
| .mk keyword _ _ _ body => ⟨keyword.loc.start, body.loc.stop⟩

/-- `Node for DoWhileStmt` (`src/spanned/stmt.rs` lines 745–752): the
span ends at the closing parenthesis of the while-test; the optional
trailing semicolon is never consulted. -/
def DoWhileStmt.loc : DoWhileStmt → SourceLocation
| .mk keyword_do _ _ _ _ close_paren _ =>
    ⟨keyword_do.loc.start, close_paren.loc.stop⟩

/-- `Node for ForStmt` (`src/spanned/stmt.rs` lines 783–790). -/
def ForStmt.loc : ForStmt → SourceLocation
| .mk keyword _ _ _ _ _ _ _ body => ⟨keyword.loc.start, body.loc.stop⟩

/-- `Node for ForInStmt` (`src/spanned/stmt.rs` lines 866–873). -/
def ForInStmt.loc : ForInStmt → SourceLocation
| .mk keyword_for _ _ _ _ _ body => ⟨keyword_for.loc.start, body.loc.stop⟩

/-- `Node for ForOfStmt` (`src/spanned/stmt.rs` lines 905–912). -/
def ForOfStmt.loc : ForOfStmt → SourceLocation
| .mk keyword_for _ _ _ _ _ body _ => ⟨keyword_for.loc.start, body.loc.stop⟩

end

/-- A location is proper when its start does not exceed its end. -/
def SourceLocation.proper (l : SourceLocation) : Bool :=
  decide (l.start ≤ l.stop)

/-- One location ends no later than another starts. -/
def SourceLocation.before (a b : SourceLocation) : Bool :=
  decide (a.stop ≤ b.start)

/-- A list of locations is a chain when every element is proper and
consecutive elements do not overlap backwards.  A parser that walks the
source left to right produces exactly such component sequences. -/
def chain : List SourceLocation → Bool
  | [] => true
  | [a] => a.proper
  | a :: b :: rest => a.proper && a.before b && chain (b :: rest)

/-- Shorthand turning an optional component location into the list of
locations it contributes to a chain. -/
def optL : Option SourceLocation → List SourceLocation
  | some l => [l]
  | none => []

theorem chain_le {a : SourceLocation} {l : List SourceLocation}
    (h : chain (a :: l) = true) {b : SourceLocation} (hb : b ∈ a :: l) :
    a.start ≤ b.stop := by
  induction l generalizing a with
  | nil =>
      rcases List.mem_singleton.mp hb with rfl
      simpa [chain, SourceLocation.proper] using h
  | cons c rest ih =>
      have h1 : a.proper = true ∧ a.before c = true ∧ chain (c :: rest) = true := by
        simpa [chain, Bool.and_assoc] using h
      have hap : a.start ≤ a.stop := by
        simpa [SourceLocation.proper] using h1.1
      have hbc : a.stop ≤ c.start := by
        simpa [SourceLocation.before] using h1.2.1
      rcases List.mem_cons.mp hb with rfl | hb'
      · exact hap
      · have := ih h1.2.2 hb'
        omega

theorem getLast?_mem_of_eq {α : Type} :
    ∀ {l : List α} {a : α}, l.getLast? = some a → a ∈ l
  | [], _, h => by simp at h
  | [x], a, h => by
      simp [List.getLast?] at h
      simp [h]
  | x :: y :: rest, a, h => by
      rw [List.getLast?_cons_cons] at h
      exact List.mem_cons_of_mem _ (getLast?_mem_of_eq h)

theorem lastPartLoc_mem :
    ∀ {ps : List ProgramPart} {l : SourceLocation},
      lastPartLoc ps = some l → l ∈ ps.map ProgramPart.loc
  | [], _, h => by simp [lastPartLoc] at h
  | [p], l, h => by
      simp [lastPartLoc] at h
      simp [h]
  | p :: q :: rest, l, h => by
      rw [show lastPartLoc (p :: q :: rest) = lastPartLoc (q :: rest) from rfl] at h
      exact List.mem_cons_of_mem _ (lastPartLoc_mem h)

/-- A leaf token is well formed when its intrinsic location is proper. -/
def Slice.wf (s : Slice) : Bool := s.loc.proper

/-- Components of a block in source order. -/
def BlockStmt.wf : BlockStmt → Bool
| .mk open_brace stmts close_brace =>
    chain ([open_brace.loc] ++ stmts.map ProgramPart.loc ++ [close_brace.loc])

/-- Components of a with statement in source order. -/
def WithStmt.wf : WithStmt → Bool
| .mk keyword open_paren object close_paren body =>
    chain [keyword.loc, open_paren.loc, object.loc, close_paren.loc, body.loc]

/-- Components of a labeled statement in source order. -/
def LabeledStmt.wf : LabeledStmt → Bool
| .mk label colon body => chain [label.loc, colon.loc, body.loc]

/-- Components of an else clause in source order. -/
def ElseStmt.wf : ElseStmt → Bool
| .mk keyword body => chain [keyword.loc, body.loc]

/-- Components of an if statement in source order. -/
def IfStmt.wf : IfStmt → Bool
| .mk keyword open_paren test close_paren consequent alternate =>
    chain ([keyword.loc, open_paren.loc, test.loc, close_paren.loc,
      consequent.loc] ++ optL (alternate.map ElseStmt.loc))

/-- Components of a switch statement in source order. -/
def SwitchStmt.wf : SwitchStmt → Bool
| .mk keyword open_paren discriminant close_paren open_brace cases close_brace =>
    chain ([keyword.loc, open_paren.loc, discriminant.loc, close_paren.loc,
      open_brace.loc] ++ cases.map SwitchCase.loc ++ [close_brace.loc])

/-- Components of a switch case in source order. -/
def SwitchCase.wf : SwitchCase → Bool
| .mk keyword test colon consequent =>
    chain ([keyword.loc] ++ optL (test.map Expr.loc) ++ [colon.loc]
      ++ consequent.map ProgramPart.loc)

/-- Components of a catch clause in source order. -/
def CatchClause.wf : CatchClause → Bool
| .mk keyword param body =>
    chain ([keyword.loc] ++ optL (param.map CatchArg.loc) ++ [body.loc])

/-- Components of a finally clause in source order. -/
def FinallyClause.wf : FinallyClause → Bool
| .mk keyword body => chain [keyword.loc, body.loc]

/-- Components of a try statement in source order. -/
def TryStmt.wf : TryStmt → Bool
| .mk keyword block handler finalizer =>
    chain ([keyword.loc, block.loc] ++ optL (handler.map CatchClause.loc)
      ++ optL (finalizer.map FinallyClause.loc))

/-- Components of a while statement in source order. -/
def WhileStmt.wf : WhileStmt → Bool
| .mk keyword open_paren test close_paren body =>
    chain [keyword.loc, open_paren.loc, test.loc, close_paren.loc, body.loc]

/-- Components of a do-while statement in source order. -/
def DoWhileStmt.wf : DoWhileStmt → Bool
| .mk keyword_do body keyword_while open_paren test close_paren semi_colon =>
    chain ([keyword_do.loc, body.loc, keyword_while.loc, open_paren.loc,
      test.loc, close_paren.loc] ++ optL (semi_colon.map Slice.loc))

/-- Components of a C-style for statement in source order. -/
def ForStmt.wf : ForStmt → Bool
| .mk keyword open_paren init semi1 test semi2 update close_paren body =>
    chain ([keyword.loc, open_paren.loc] ++ optL (init.map LoopInit.loc)
      ++ [semi1.loc] ++ optL (test.map Expr.loc) ++ [semi2.loc]
      ++ optL (update.map Expr.loc) ++ [close_paren.loc, body.loc])

/-- Components of a for-in statement in source order. -/
def ForInStmt.wf : ForInStmt → Bool
| .mk keyword_for open_paren left keyword_in right close_paren body =>
    chain [keyword_for.loc, open_paren.loc, left.loc, keyword_in.loc,
      right.loc, close_paren.loc, body.loc]

/-- Components of a for-of statement in source order. -/
def ForOfStmt.wf : ForOfStmt → Bool
| .mk keyword_for open_paren left keyword_of right close_paren body _ =>
    chain [keyword_for.loc, open_paren.loc, left.loc, keyword_of.loc,
      right.loc, close_paren.loc, body.loc]

/-- Components of a loop initialiser in source order. -/
def LoopInit.wf : LoopInit → Bool
| .Variable kind decls => chain ([kind.loc] ++ decls.map ListEntry.loc)
| .Expr e => chain [e.loc]

/-- Components of a loop left-hand side in source order. -/
def LoopLeft.wf : LoopLeft → Bool
| .Expr e => chain [e.loc]
| .Variable kind decl => chain [kind.loc, decl.loc]
| .Pat p => chain [p.loc]

/-- Components of a catch parameter in source order. -/
def CatchArg.wf (c : CatchArg) : Bool :=
  chain [c.open_paren.loc, c.param.loc, c.close_paren.loc]

/-- Components of a declaration list in source order. -/
def VarDecls.wf (d : VarDecls) : Bool :=
  chain ([d.keyword.loc] ++ d.decls.map ListEntry.loc)

/-- Components of a statement in source order; composite variants
delegate to their payload. -/
def Stmt.wf : Stmt → Bool
| .Expr expr semi_colon => chain ([expr.loc] ++ optL (semi_colon.map Slice.loc))
| .Block inner => inner.wf
| .Empty inner => chain [inner.loc]
| .Debugger keyword semi_colon =>
    chain ([keyword.loc] ++ optL (semi_colon.map Slice.loc))
| .With inner => inner.wf
| .Return keyword value semi_colon =>
    chain ([keyword.loc] ++ optL (value.map Expr.loc)
      ++ optL (semi_colon.map Slice.loc))
| .Labeled inner => inner.wf
| .Break keyword label semi_colon =>
    chain ([keyword.loc] ++ optL (label.map Ident.loc)
      ++ optL (semi_colon.map Slice.loc))
| .Continue keyword label semi_colon =>
    chain ([keyword.loc] ++ optL (label.map Ident.loc)
      ++ optL (semi_colon.map Slice.loc))
| .If inner => inner.wf
| .Switch inner => inner.wf
| .Throw keyword expr semi_colon =>
    chain ([keyword.loc, expr.loc] ++ optL (semi_colon.map Slice.loc))
| .Try inner => inner.wf
| .While inner => inner.wf
| .DoWhile inner => inner.wf
| .For inner => inner.wf
| .ForIn inner => inner.wf
| .ForOf inner => inner.wf
| .Var decls semi_colon =>
    chain ([decls.loc] ++ optL (semi_colon.map Slice.loc))

/-- A program part is well formed when its payload is. -/
def ProgramPart.wf : ProgramPart → Bool
| .Decl d => chain [d.loc]
| .Stmt s => s.wf

theorem BlockStmt.wf_loc_block (b : BlockStmt) (h : b.wf = true) :
    b.loc.start ≤ b.loc.stop := by
  rcases b with ⟨ob, ps, cb⟩
  simp only [BlockStmt.wf, List.cons_append, List.nil_append] at h
  simpa [BlockStmt.loc] using chain_le h (by simp)

theorem WithStmt.wf_loc_withs (w : WithStmt) (h : w.wf = true) :
    w.loc.start ≤ w.loc.stop := by
  rcases w with ⟨k, op, obj, cp, body⟩
  simp only [WithStmt.wf] at h
  simpa [WithStmt.loc] using chain_le h (by simp)

theorem LabeledStmt.wf_loc_labeled (l : LabeledStmt) (h : l.wf = true) :
    l.loc.start ≤ l.loc.stop := by
  rcases l with ⟨lbl, colon, body⟩
  simp only [LabeledStmt.wf] at h
  simpa [LabeledStmt.loc] using chain_le h (by simp)

theorem ElseStmt.wf_loc_elses (e : ElseStmt) (h : e.wf = true) :
    e.loc.start ≤ e.loc.stop := by
  rcases e with ⟨k, body⟩
  simp only [ElseStmt.wf] at h
  simpa [ElseStmt.loc] using chain_le h (by simp)

theorem IfStmt.wf_loc_ifs (i : IfStmt) (h : i.wf = true) :
    i.loc.start ≤ i.loc.stop := by
  rcases i with ⟨k, op, t, cp, cons, alt⟩
  cases alt with
  | none =>
      simp only [IfStmt.wf, optL, Option.map_none', List.append_nil,
        List.cons_append, List.nil_append] at h
      simpa [IfStmt.loc] using chain_le h (by simp)
  | some e =>
      simp only [IfStmt.wf, optL, Option.map_some', List.cons_append,
        List.nil_append] at h
      simpa [IfStmt.loc] using chain_le h (by simp)

theorem SwitchStmt.wf_loc_switch (sw : SwitchStmt) (h : sw.wf = true) :
    sw.loc.start ≤ sw.loc.stop := by
  rcases sw with ⟨k, op, d, cp, ob, cs, cb⟩
  simp only [SwitchStmt.wf, List.cons_append, List.nil_append] at h
  simpa [SwitchStmt.loc] using chain_le h (by simp)

theorem SwitchCase.wf_loc_case (c : SwitchCase) (h : c.wf = true) :
    c.loc.start ≤ c.loc.stop := by
  rcases c with ⟨k, t, colon, cons⟩
  simp only [SwitchCase.wf, List.cons_append, List.nil_append,
    List.append_assoc] at h
  cases hlast : lastPartLoc cons with
  | none =>
      have hmem : colon.loc ∈ k.loc :: (optL (t.map Expr.loc)
          ++ (colon.loc :: cons.map ProgramPart.loc)) := by
        cases t <;> simp [optL]
      simpa [SwitchCase.loc, hlast] using chain_le h hmem
  | some l =>
      have hl := lastPartLoc_mem hlast
      have hmem : l ∈ k.loc :: (optL (t.map Expr.loc)
          ++ (colon.loc :: cons.map ProgramPart.loc)) := by
        cases t <;> simp [optL, hl]
      simpa [SwitchCase.loc, hlast] using chain_le h hmem

theorem CatchClause.wf_loc_catch (c : CatchClause) (h : c.wf = true) :
    c.loc.start ≤ c.loc.stop := by
  rcases c with ⟨k, p, body⟩
  cases p with
  | none =>
      simp only [CatchClause.wf, optL, Option.map_none', List.cons_append,
        List.nil_append] at h
      simpa [CatchClause.loc] using chain_le h (by simp)
  | some a =>
      simp only [CatchClause.wf, optL, Option.map_some', List.cons_append,
        List.nil_append] at h
      simpa [CatchClause.loc] using chain_le h (by simp)

theorem FinallyClause.wf_loc_finally (f : FinallyClause) (h : f.wf = true) :
    f.loc.start ≤ f.loc.stop := by
  rcases f with ⟨k, body⟩
  simp only [FinallyClause.wf] at h
  simpa [FinallyClause.loc] using chain_le h (by simp)

theorem TryStmt.wf_loc_trys (t : TryStmt) (h : t.wf = true) :
    t.loc.start ≤ t.loc.stop := by
  rcases t with ⟨k, blk, hd, fin⟩
  cases hd <;> cases fin <;>
    · simp only [TryStmt.wf, optL, Option.map_none', Option.map_some',
        List.cons_append, List.nil_append, List.append_nil,
        List.append_assoc] at h
      simpa [TryStmt.loc] using chain_le h (by simp)

theorem WhileStmt.wf_loc_whiles (w : WhileStmt) (h : w.wf = true) :
    w.loc.start ≤ w.loc.stop := by
  rcases w with ⟨k, op, t, cp, body⟩
  simp only [WhileStmt.wf] at h
  simpa [WhileStmt.loc] using chain_le h (by simp)

theorem DoWhileStmt.wf_loc_dowhile (d : DoWhileStmt) (h : d.wf = true) :
    d.loc.start ≤ d.loc.stop := by
  rcases d with ⟨kd, body, kw, op, t, cp, semi⟩
  cases semi <;>
    · simp only [DoWhileStmt.wf, optL, Option.map_none', Option.map_some',
        List.cons_append, List.nil_append, List.append_nil] at h
      simpa [DoWhileStmt.loc] using chain_le h (by simp)

theorem ForStmt.wf_loc_fors (f : ForStmt) (h : f.wf = true) :
    f.loc.start ≤ f.loc.stop := by
  rcases f with ⟨k, op, init, s1, t, s2, u, cp, body⟩
  cases init <;> cases t <;> cases u <;>
    · simp only [ForStmt.wf, optL, Option.map_none', Option.map_some',
        List.cons_append, List.nil_append, List.append_nil,
        List.append_assoc] at h
      simpa [ForStmt.loc] using chain_le h (by simp)

theorem ForInStmt.wf_loc_forin (f : ForInStmt) (h : f.wf = true) :
    f.loc.start ≤ f.loc.stop := by
  rcases f with ⟨kf, op, left, ki, right, cp, body⟩
  simp only [ForInStmt.wf] at h
  simpa [ForInStmt.loc] using chain_le h (by simp)

theorem ForOfStmt.wf_loc_forof (f : ForOfStmt) (h : f.wf = true) :
    f.loc.start ≤ f.loc.stop := by
  rcases f with ⟨kf, op, left, ko, right, cp, body, aw⟩
  simp only [ForOfStmt.wf] at h
  simpa [ForOfStmt.loc] using chain_le h (by simp)

theorem LoopInit.wf_loc_loopinit (i : LoopInit) (h : i.wf = true) :
    i.loc.start ≤ i.loc.stop := by
  cases i with
  | Variable kind ds =>
      simp only [LoopInit.wf, List.cons_append, List.nil_append] at h
      cases hlast : ds.getLast? with
      | none => simpa [LoopInit.loc, hlast] using chain_le h (by simp)
      | some e =>
          have he : e.loc ∈ kind.loc :: ds.map ListEntry.loc := by
            simp [List.mem_map]
            exact Or.inr ⟨e, getLast?_mem_of_eq hlast, rfl⟩
          simpa [LoopInit.loc, hlast] using chain_le h he
  | Expr e =>
      simp only [LoopInit.wf] at h
      simpa [LoopInit.loc] using chain_le h (by simp)

theorem LoopLeft.wf_loc_loopleft (l : LoopLeft) (h : l.wf = true) :
    l.loc.start ≤ l.loc.stop := by
  cases l with
  | Expr e =>
      simp only [LoopLeft.wf] at h
      simpa [LoopLeft.loc] using chain_le h (by simp)
  | Variable kind d =>
      simp only [LoopLeft.wf] at h
      simpa [LoopLeft.loc] using chain_le h (by simp)
  | Pat p =>
      simp only [LoopLeft.wf] at h
      simpa [LoopLeft.loc] using chain_le h (by simp)

theorem CatchArg.wf_loc_catcharg (c : CatchArg) (h : c.wf = true) :
    c.loc.start ≤ c.loc.stop := by
  simp only [CatchArg.wf] at h
  simpa [CatchArg.loc] using chain_le h (by simp)

theorem VarDecls.wf_loc_vardecls (d : VarDecls) (h : d.wf = true) :
    d.loc.start ≤ d.loc.stop := by
  rcases d with ⟨kw, ds⟩
  simp only [VarDecls.wf, List.cons_append, List.nil_append] at h
  cases hlast : ds.getLast? with
  | none => simpa [VarDecls.loc, hlast] using chain_le h (by simp)
  | some e =>
      have he : e.loc ∈ kw.loc :: ds.map ListEntry.loc := by
        simp [List.mem_map]
        exact Or.inr ⟨e, getLast?_mem_of_eq hlast, rfl⟩
      simpa [VarDecls.loc, hlast] using chain_le h he

theorem Stmt.wf_loc_stmt (s : Stmt) (h : s.wf = true) :
    s.loc.start ≤ s.loc.stop := by
  cases s with
  | Expr e semi =>
      cases semi <;>
        · simp only [Stmt.wf, optL, Option.map_none', Option.map_some',
            List.cons_append, List.nil_append, List.append_nil] at h
          simpa [Stmt.loc] using chain_le h (by simp)
  | Block inner => simpa [Stmt.loc] using inner.wf_loc_block (by simpa [Stmt.wf] using h)
  | Empty inner =>
      simp only [Stmt.wf] at h
      simpa [Stmt.loc] using chain_le h (by simp)
  | Debugger k semi =>
      cases semi <;>
        · simp only [Stmt.wf, optL, Option.map_none', Option.map_some',
            List.cons_append, List.nil_append, List.append_nil] at h
          simpa [Stmt.loc] using chain_le h (by simp)
  | With inner => simpa [Stmt.loc] using inner.wf_loc_withs (by simpa [Stmt.wf] using h)
  | Return k v semi =>
      cases v <;> cases semi <;>
        · simp only [Stmt.wf, optL, Option.map_none', Option.map_some',
            List.cons_append, List.nil_append, List.append_nil,
            List.append_assoc] at h
          simpa [Stmt.loc] using chain_le h (by simp)
  | Labeled inner => simpa [Stmt.loc] using inner.wf_loc_labeled (by simpa [Stmt.wf] using h)
  | Break k lbl semi =>
      cases lbl <;> cases semi <;>
        · simp only [Stmt.wf, optL, Option.map_none', Option.map_some',
            List.cons_append, List.nil_append, List.append_nil,
            List.append_assoc] at h
          simpa [Stmt.loc] using chain_le h (by simp)
  | Continue k lbl semi =>
      cases lbl <;> cases semi <;>
        · simp only [Stmt.wf, optL, Option.map_none', Option.map_some',
            List.cons_append, List.nil_append, List.append_nil,
            List.append_assoc] at h
          simpa [Stmt.loc] using chain_le h (by simp)
  | If inner => simpa [Stmt.loc] using inner.wf_loc_ifs (by simpa [Stmt.wf] using h)
  | Switch inner => simpa [Stmt.loc] using inner.wf_loc_switch (by simpa [Stmt.wf] using h)
  | Throw k e semi =>
      cases semi <;>
        · simp only [Stmt.wf, optL, Option.map_none', Option.map_some',
            List.cons_append, List.nil_append, List.append_nil] at h
          simpa [Stmt.loc] using chain_le h (by simp)
  | Try inner => simpa [Stmt.loc] using inner.wf_loc_trys (by simpa [Stmt.wf] using h)
  | While inner => simpa [Stmt.loc] using inner.wf_loc_whiles (by simpa [Stmt.wf] using h)
  | DoWhile inner => simpa [Stmt.loc] using inner.wf_loc_dowhile (by simpa [Stmt.wf] using h)
  | For inner => simpa [Stmt.loc] using inner.wf_loc_fors (by simpa [Stmt.wf] using h)
  | ForIn inner => simpa [Stmt.loc] using inner.wf_loc_forin (by simpa [Stmt.wf] using h)
  | ForOf inner => simpa [Stmt.loc] using inner.wf_loc_forof (by simpa [Stmt.wf] using h)
  | Var ds semi =>
      cases semi <;>
        · simp only [Stmt.wf, optL, Option.map_none', Option.map_some',
            List.cons_append, List.nil_append, List.append_nil] at h
          simpa [Stmt.loc] using chain_le h (by simp)

theorem ProgramPart.wf_loc_part (p : ProgramPart) (h : p.wf = true) :
    p.loc.start ≤ p.loc.stop := by
  cases p with
  | Decl d =>
      simp only [ProgramPart.wf] at h
      simpa [ProgramPart.loc] using chain_le h (by simp)
  | Stmt s => simpa [ProgramPart.loc] using s.wf_loc_stmt (by simpa [ProgramPart.wf] using h)

theorem Slice.wf_loc_slice (s : Slice) (h : s.wf = true) :
    s.loc.start ≤ s.loc.stop := by
  simpa [Slice.wf, SourceLocation.proper] using h

/-- Allocated loop initialiser (`crate::stmt::LoopInit`, reconstructed
from the conversion in `src/spanned/stmt.rs` lines 831–841). -/
inductive ALoopInit where
  | Variable (kind : AVarKind) (decls : List AVarDecl)
  | Expr (e : AExpr)
deriving DecidableEq, Repr

/-- Allocated loop left-hand side (`crate::stmt::LoopLeft`,
reconstructed from the conversion in `src/spanned/stmt.rs` lines
934–942). -/
inductive ALoopLeft where
  | Expr (e : AExpr)
  | Variable (kind : AVarKind) (decl : AVarDecl)
  | Pat (p : APat)
deriving DecidableEq, Repr

mutual

/-- The allocated statement sum type (`crate::stmt::Stmt`,
reconstructed from the conversion in `src/spanned/stmt.rs` lines
203–229): same variant shapes, all tokens and terminator slots gone. -/
inductive AStmt where
| Expr (e : AExpr)
| Block (inner : ABlockStmt)
| Empty
| Debugger
| With (inner : AWithStmt)
| Return (value : Option AExpr)
| Labeled (inner : ALabeledStmt)
| Break (label : Option AIdent)
| Continue (label : Option AIdent)
| If (inner : AIfStmt)
| Switch (inner : ASwitchStmt)
| Throw (e : AExpr)
| Try (inner : ATryStmt)
| While (inner : AWhileStmt)
| DoWhile (inner : ADoWhileStmt)
| For (inner : AForStmt)
| ForIn (inner : AForInStmt)
| ForOf (inner : AForOfStmt)
| Var (decls : List AVarDecl)

/-- Allocated program part. -/
inductive AProgramPart where
| Decl (d : ADecl)
| Stmt (s : AStmt)

/-- Allocated block: just the ordered member sequence. -/
inductive ABlockStmt where
| mk (stmts : List AProgramPart)

/-- Allocated with statement. -/
inductive AWithStmt where
| mk (object : AExpr) (body : AStmt)

/-- Allocated labeled statement. -/
inductive ALabeledStmt where
| mk (label : AIdent) (body : AStmt)

/-- Allocated if statement; the else-clause wrapper is unwrapped to the
bare alternate body. -/
inductive AIfStmt where
| mk (test : AExpr) (consequent : AStmt) (alternate : Option AStmt)

/-- Allocated switch statement. -/
inductive ASwitchStmt where
| mk (discriminant : AExpr) (cases : List ASwitchCase)

/-- Allocated switch case. -/
inductive ASwitchCase where
| mk (test : Option AExpr) (consequent : List AProgramPart)

/-- Allocated try statement; the finally wrapper is unwrapped to its
block. -/
inductive ATryStmt where
| mk (block : ABlockStmt) (handler : Option ACatchClause)
    (finalizer : Option ABlockStmt)

/-- Allocated catch clause; the parenthesised argument wrapper is
unwrapped to the bare pattern. -/
inductive ACatchClause where
| mk (param : Option APat) (body : ABlockStmt)

/-- Allocated while statement. -/
inductive AWhileStmt where
| mk (test : AExpr) (body : AStmt)

/-- Allocated do-while statement. -/
inductive ADoWhileStmt where
| mk (test : AExpr) (body : AStmt)

/-- Allocated C-style for statement. -/
inductive AForStmt where
| mk (init : Option ALoopInit) (test : Option AExpr) (update : Option AExpr)
    (body : AStmt)

/-- Allocated for-in statement. -/
inductive AForInStmt where
| mk (left : ALoopLeft) (right : AExpr) (body : AStmt)

/-- Allocated for-of statement; the `is_await` flag is carried over. -/
inductive AForOfStmt where
| mk (left : ALoopLeft) (right : AExpr) (body : AStmt) (is_await : Bool)

end

/-- `From<LoopInit> for crate::stmt::LoopInit`
(`src/spanned/stmt.rs` lines 831–841): the list-entry wrappers are
unwrapped to their declarator payloads. -/
def LoopInit.toAllocated : LoopInit → ALoopInit
  | .Expr e => .Expr e.toAllocated
  | .Variable kind decls =>
      .Variable kind.toAllocated (decls.map fun e => e.item.toAllocated)

/-- `From<LoopLeft> for crate::stmt::LoopLeft`
(`src/spanned/stmt.rs` lines 934–942). -/
def LoopLeft.toAllocated : LoopLeft → ALoopLeft
  | .Expr e => .Expr e.toAllocated
  | .Variable kind decl => .Variable kind.toAllocated decl.toAllocated
  | .Pat p => .Pat p.toAllocated

/-- The declarator-list mapping used by the `Var` conversion
(`decls.decls.into_iter().map(|e| e.item.into())`,
`src/spanned/stmt.rs` lines 224–226). -/
def entriesToAllocated : List ListEntry → List AVarDecl
  | [] => []
  | e :: rest => e.item.toAllocated :: entriesToAllocated rest

mutual

/-- `From<Stmt> for crate::stmt::Stmt` (`src/spanned/stmt.rs` lines
203–229): every token, delimiter and terminator slot is discarded. -/
def Stmt.toAllocated : Stmt → AStmt
| .Expr expr _ => .Expr expr.toAllocated
| .Block inner => .Block inner.toAllocated
| .Empty _ => .Empty
| .Debugger _ _ => .Debugger
| .With inner => .With inner.toAllocated
| .Return _ value _ =>
    match value with
    | some v => .Return (some v.toAllocated)
    | none => .Return none
| .Labeled inner => .Labeled inner.toAllocated
| .Break _ label _ =>
    match label with
    | some l => .Break (some l.toAllocated)
    | none => .Break none
| .Continue _ label _ =>
    match label with
    | some l => .Continue (some l.toAllocated)
    | none => .Continue none
| .If inner => .If inner.toAllocated
| .Switch inner => .Switch inner.toAllocated
| .Throw _ expr _ => .Throw expr.toAllocated
| .Try inner => .Try inner.toAllocated
| .While inner => .While inner.toAllocated
| .DoWhile inner => .DoWhile inner.toAllocated
| .For inner => .For inner.toAllocated
| .ForIn inner => .ForIn inner.toAllocated
| .ForOf inner => .ForOf inner.toAllocated
| .Var decls _ => .Var (entriesToAllocated decls.decls)

/-- Conversion of a program part. -/
def ProgramPart.toAllocated : ProgramPart → AProgramPart
| .Decl d => .Decl d.toAllocated
| .Stmt s => .Stmt s.toAllocated

/-- Depth-first, order-preserving conversion of a part sequence (the
`into_iter().map(From::from).collect()` idiom). -/
def partsToAllocated : List ProgramPart → List AProgramPart
| [] => []
| p :: rest => p.toAllocated :: partsToAllocated rest

/-- `From<BlockStmt> for crate::stmt::BlockStmt`
(`src/spanned/stmt.rs` lines 565–569). -/
def BlockStmt.toAllocated : BlockStmt → ABlockStmt
| .mk _ stmts _ => .mk (partsToAllocated stmts)

/-- `From<WithStmt> for crate::stmt::WithStmt`
(`src/spanned/stmt.rs` lines 384–391). -/
def WithStmt.toAllocated : WithStmt → AWithStmt
| .mk _ _ object _ body => .mk object.toAllocated body.toAllocated

/-- `From<LabeledStmt> for crate::stmt::LabeledStmt`
(`src/spanned/stmt.rs` lines 418–425). -/
def LabeledStmt.toAllocated : LabeledStmt → ALabeledStmt
| .mk label _ body => .mk label.toAllocated body.toAllocated

/-- `From<IfStmt> for crate::stmt::IfStmt`
(`src/spanned/stmt.rs` lines 457–465): the else-clause wrapper is
unwrapped to its body. -/
def IfStmt.toAllocated : IfStmt → AIfStmt
| .mk _ _ test _ consequent alternate =>
    match alternate with
    | some (.mk _ body) =>
        .mk test.toAllocated consequent.toAllocated (some body.toAllocated)
    | none => .mk test.toAllocated consequent.toAllocated none

/-- `From<SwitchStmt> for crate::stmt::SwitchStmt`
(`src/spanned/stmt.rs` lines 516–523). -/
def SwitchStmt.toAllocated : SwitchStmt → ASwitchStmt
| .mk _ _ discriminant _ _ cases _ =>
    .mk discriminant.toAllocated (casesToAllocated cases)

/-- Conversion of the case sequence, order preserved. -/
def casesToAllocated : List SwitchCase → List ASwitchCase
| [] => []
| c :: rest => c.toAllocated :: casesToAllocated rest

/-- `From<SwitchCase> for crate::stmt::SwitchCase`
(`src/spanned/stmt.rs` lines 548–555). -/
def SwitchCase.toAllocated : SwitchCase → ASwitchCase
| .mk _ test _ consequent =>
    match test with
    | some t => .mk (some t.toAllocated) (partsToAllocated consequent)
    | none => .mk none (partsToAllocated consequent)

/-- `From<TryStmt> for crate::stmt::TryStmt`
(`src/spanned/stmt.rs` lines 614–622). -/
def TryStmt.toAllocated : TryStmt → ATryStmt
| .mk _ block handler finalizer =>
    .mk block.toAllocated
      (match handler with
       | some c => some c.toAllocated
       | none => none)
      (match finalizer with
       | some f => some f.toAllocated
       | none => none)

/-- `From<CatchClause> for crate::stmt::CatchClause`
(`src/spanned/stmt.rs` lines 641–648): the parenthesised argument
wrapper is unwrapped to its pattern. -/
def CatchClause.toAllocated : CatchClause → ACatchClause
| .mk _ param body =>
    match param with
    | some a => .mk (some a.param.toAllocated) body.toAllocated
    | none => .mk none body.toAllocated

/-- `From<FinallyClause> for crate::stmt::BlockStmt`
(`src/spanned/stmt.rs` lines 681–685): the finally wrapper converts to
its block. -/
def FinallyClause.toAllocated : FinallyClause → ABlockStmt
| .mk _ body => body.toAllocated

/-- `From<WhileStmt> for crate::stmt::WhileStmt`
(`src/spanned/stmt.rs` lines 719–726). -/
def WhileStmt.toAllocated : WhileStmt → AWhileStmt
| .mk _ _ test _ body => .mk test.toAllocated body.toAllocated

/-- `From<DoWhileStmt> for crate::stmt::DoWhileStmt`
(`src/spanned/stmt.rs` lines 754–761). -/
def DoWhileStmt.toAllocated : DoWhileStmt → ADoWhileStmt
| .mk _ body _ _ test _ _ => .mk test.toAllocated body.toAllocated

/-- `From<ForStmt> for crate::stmt::ForStmt`
(`src/spanned/stmt.rs` lines 792–801). -/
def ForStmt.toAllocated : ForStmt → AForStmt
| .mk _ _ init _ test _ update _ body =>
    .mk
      (match init with
       | some i => some i.toAllocated
       | none => none)
      (match test with
       | some t => some t.toAllocated
       | none => none)
      (match update with
       | some u => some u.toAllocated
       | none => none)
      body.toAllocated

/-- `From<ForInStmt> for crate::stmt::ForInStmt`
(`src/spanned/stmt.rs` lines 875–883). -/
def ForInStmt.toAllocated : ForInStmt → AForInStmt
| .mk _ _ left _ right _ body =>
    .mk left.toAllocated right.toAllocated body.toAllocated

/-- `From<ForOfStmt> for crate::stmt::ForOfStmt`
(`src/spanned/stmt.rs` lines 914–922): `is_await` is carried over
unchanged. -/
def ForOfStmt.toAllocated : ForOfStmt → AForOfStmt
| .mk _ _ left _ right _ body is_await =>
    .mk left.toAllocated right.toAllocated body.toAllocated is_await

end

/-- The keyword token of a switch statement. -/
def SwitchStmt.keyword : SwitchStmt → Slice
| .mk keyword _ _ _ _ _ _ => keyword

/-- The closing parenthesis of the discriminant of a switch statement. -/
def SwitchStmt.close_paren : SwitchStmt → Slice
| .mk _ _ _ close_paren _ _ _ => close_paren

/-- The case list of a switch statement. -/
def SwitchStmt.cases : SwitchStmt → List SwitchCase
| .mk _ _ _ _ _ cases _ => cases

/-- The consequent sequence of a switch case. -/
def SwitchCase.consequent : SwitchCase → List ProgramPart
| .mk _ _ _ consequent => consequent

/-- The member sequence of a block. -/
def BlockStmt.stmts : BlockStmt → List ProgramPart
| .mk _ stmts _ => stmts

/-- The await flag of a spanned for-of statement. -/
def ForOfStmt.is_await : ForOfStmt → Bool
| .mk _ _ _ _ _ _ _ is_await => is_await

/-- The case list of an allocated switch statement. -/
def ASwitchStmt.cases : ASwitchStmt → List ASwitchCase
| .mk _ cases => cases

/-- The consequent sequence of an allocated switch case. -/
def ASwitchCase.consequent : ASwitchCase → List AProgramPart
| .mk _ consequent => consequent

/-- The member sequence of an allocated block. -/
def ABlockStmt.stmts : ABlockStmt → List AProgramPart
| .mk stmts => stmts

/-- The await flag of an allocated for-of statement. -/
def AForOfStmt.is_await : AForOfStmt → Bool
| .mk _ _ _ is_await => is_await

/-- The discriminating tag of the nineteen statement variants. -/
inductive StmtTag where
  | Expr | Block | Empty | Debugger | With | Return | Labeled | Break
  | Continue | If | Switch | Throw | Try | While | DoWhile | For
  | ForIn | ForOf | Var
deriving DecidableEq, Repr

/-- Tag of a spanned statement. -/
def Stmt.tag : Stmt → StmtTag
| .Expr _ _ => .Expr
| .Block _ => .Block
| .Empty _ => .Empty
| .Debugger _ _ => .Debugger
| .With _ => .With
| .Return _ _ _ => .Return
| .Labeled _ => .Labeled
| .Break _ _ _ => .Break
| .Continue _ _ _ => .Continue
| .If _ => .If
| .Switch _ => .Switch
| .Throw _ _ _ => .Throw
| .Try _ => .Try
| .While _ => .While
| .DoWhile _ => .DoWhile
| .For _ => .For
| .ForIn _ => .ForIn
| .ForOf _ => .ForOf
| .Var _ _ => .Var

/-- Tag of an allocated statement. -/
def AStmt.tag : AStmt → StmtTag
| .Expr _ => .Expr
| .Block _ => .Block
| .Empty => .Empty
| .Debugger => .Debugger
| .With _ => .With
| .Return _ => .Return
| .Labeled _ => .Labeled
| .Break _ => .Break
| .Continue _ => .Continue
| .If _ => .If
| .Switch _ => .Switch
| .Throw _ => .Throw
| .Try _ => .Try
| .While _ => .While
| .DoWhile _ => .DoWhile
| .For _ => .For
| .ForIn _ => .ForIn
| .ForOf _ => .ForOf
| .Var _ => .Var

/-- Replace the optional trailing terminator slot of a statement, on
the variants that have one (`Expr`, `Debugger`, `Return`, `Break`,
`Continue`, `Throw`, `Var`, and the do-while trailing semicolon); all
other variants are returned unchanged. -/
def Stmt.setSemi : Stmt → Option Slice → Stmt
| .Expr expr _, o => .Expr expr o
| .Debugger keyword _, o => .Debugger keyword o
| .Return keyword value _, o => .Return keyword value o
| .Break keyword label _, o => .Break keyword label o
| .Continue keyword label _, o => .Continue keyword label o
| .Throw keyword expr _, o => .Throw keyword expr o
| .Var decls _, o => .Var decls o
| .DoWhile (.mk kd body kw op t cp _), o => .DoWhile (.mk kd body kw op t cp o)
| s, _ => s

/-- Apply a relabelling to the optional separator of a list entry. -/
def ListEntry.mapTokens (f : Slice → Slice) (e : ListEntry) : ListEntry :=
  ⟨e.item, e.comma.map f⟩

/-- Apply a relabelling to every separator of a declaration list. -/
def VarDecls.mapTokens (f : Slice → Slice) (d : VarDecls) : VarDecls :=
  ⟨d.keyword, d.decls.map (ListEntry.mapTokens f)⟩

/-- Apply a relabelling to every token of a loop initialiser. -/
def LoopInit.mapTokens (f : Slice → Slice) : LoopInit → LoopInit
  | .Variable kind decls => .Variable kind (decls.map (ListEntry.mapTokens f))
  | .Expr e => .Expr e

/-- Apply a relabelling to the parentheses of a catch parameter. -/
def CatchArg.mapTokens (f : Slice → Slice) (c : CatchArg) : CatchArg :=
  ⟨f c.open_paren, c.param, f c.close_paren⟩

mutual

/-- Apply a relabelling `f` to every delimiter, keyword and terminator
token a statement owns, recursively; the external sub-nodes are left
untouched. -/
def Stmt.mapTokens (f : Slice → Slice) : Stmt → Stmt
| .Expr expr semi_colon => .Expr expr (semi_colon.map f)
| .Block inner => .Block (inner.mapTokens f)
| .Empty inner => .Empty (f inner)
| .Debugger keyword semi_colon => .Debugger (f keyword) (semi_colon.map f)
| .With inner => .With (inner.mapTokens f)
| .Return keyword value semi_colon =>
    .Return (f keyword) value (semi_colon.map f)
| .Labeled inner => .Labeled (inner.mapTokens f)
| .Break keyword label semi_colon =>
    .Break (f keyword) label (semi_colon.map f)
| .Continue keyword label semi_colon =>
    .Continue (f keyword) label (semi_colon.map f)
| .If inner => .If (inner.mapTokens f)
| .Switch inner => .Switch (inner.mapTokens f)
| .Throw keyword expr semi_colon =>
    .Throw (f keyword) expr (semi_colon.map f)
| .Try inner => .Try (inner.mapTokens f)
| .While inner => .While (inner.mapTokens f)
| .DoWhile inner => .DoWhile (inner.mapTokens f)
| .For inner => .For (inner.mapTokens f)
| .ForIn inner => .ForIn (inner.mapTokens f)
| .ForOf inner => .ForOf (inner.mapTokens f)
| .Var decls semi_colon => .Var (decls.mapTokens f) (semi_colon.map f)

/-- Token relabelling of a program part. -/
def ProgramPart.mapTokens (f : Slice → Slice) : ProgramPart → ProgramPart
| .Decl d => .Decl d
| .Stmt s => .Stmt (s.mapTokens f)

/-- Token relabelling of a part sequence. -/
def partsMapTokens (f : Slice → Slice) : List ProgramPart → List ProgramPart
| [] => []
| p :: rest => p.mapTokens f :: partsMapTokens f rest

/-- Token relabelling of a block. -/
def BlockStmt.mapTokens (f : Slice → Slice) : BlockStmt → BlockStmt
| .mk open_brace stmts close_brace =>
    .mk (f open_brace) (partsMapTokens f stmts) (f close_brace)

/-- Token relabelling of a with statement. -/
def WithStmt.mapTokens (f : Slice → Slice) : WithStmt → WithStmt
| .mk keyword open_paren object close_paren body =>
    .mk (f keyword) (f open_paren) object (f close_paren) (body.mapTokens f)

/-- Token relabelling of a labeled statement. -/
def LabeledStmt.mapTokens (f : Slice → Slice) : LabeledStmt → LabeledStmt
| .mk label colon body => .mk label (f colon) (body.mapTokens f)

/-- Token relabelling of an if statement. -/
def IfStmt.mapTokens (f : Slice → Slice) : IfStmt → IfStmt
| .mk keyword open_paren test close_paren consequent alternate =>
    .mk (f keyword) (f open_paren) test (f close_paren)
      (consequent.mapTokens f)
      (match alternate with
       | some e => some (e.mapTokens f)
       | none => none)

/-- Token relabelling of an else clause. -/
def ElseStmt.mapTokens (f : Slice → Slice) : ElseStmt → ElseStmt
| .mk keyword body => .mk (f keyword) (body.mapTokens f)

/-- Token relabelling of a switch statement. -/
def SwitchStmt.mapTokens (f : Slice → Slice) : SwitchStmt → SwitchStmt
| .mk keyword open_paren discriminant close_paren open_brace cases close_brace =>
    .mk (f keyword) (f open_paren) discriminant (f close_paren)
      (f open_brace) (casesMapTokens f cases) (f close_brace)

/-- Token relabelling of a case sequence. -/
def casesMapTokens (f : Slice → Slice) : List SwitchCase → List SwitchCase
| [] => []
| c :: rest => c.mapTokens f :: casesMapTokens f rest

/-- Token relabelling of a switch case. -/
def SwitchCase.mapTokens (f : Slice → Slice) : SwitchCase → SwitchCase
| .mk keyword test colon consequent =>
    .mk (f keyword) test (f colon) (partsMapTokens f consequent)

/-- Token relabelling of a try statement. -/
def TryStmt.mapTokens (f : Slice → Slice) : TryStmt → TryStmt
| .mk keyword block handler finalizer =>
    .mk (f keyword) (block.mapTokens f)
      (match handler with
       | some c => some (c.mapTokens f)
       | none => none)
      (match finalizer with
       | some fin => some (fin.mapTokens f)
       | none => none)

/-- Token relabelling of a catch clause. -/
def CatchClause.mapTokens (f : Slice → Slice) : CatchClause → CatchClause
| .mk keyword param body =>
    .mk (f keyword) (param.map (CatchArg.mapTokens f)) (body.mapTokens f)

/-- Token relabelling of a finally clause. -/
def FinallyClause.mapTokens (f : Slice → Slice) : FinallyClause → FinallyClause
| .mk keyword body => .mk (f keyword) (body.mapTokens f)

/-- Token relabelling of a while statement. -/
def WhileStmt.mapTokens (f : Slice → Slice) : WhileStmt → WhileStmt
| .mk keyword open_paren test close_paren body =>
    .mk (f keyword) (f open_paren) test (f close_paren) (body.mapTokens f)

/-- Token relabelling of a do-while statement. -/
def DoWhileStmt.mapTokens (f : Slice → Slice) : DoWhileStmt → DoWhileStmt
| .mk keyword_do body keyword_while open_paren test close_paren semi_colon =>
    .mk (f keyword_do) (body.mapTokens f) (f keyword_while) (f open_paren)
      test (f close_paren) (semi_colon.map f)

/-- Token relabelling of a C-style for statement. -/
def ForStmt.mapTokens (f : Slice → Slice) : ForStmt → ForStmt
| .mk keyword open_paren init semi1 test semi2 update close_paren body =>
    .mk (f keyword) (f open_paren) (init.map (LoopInit.mapTokens f))
      (f semi1) test (f semi2) update (f close_paren) (body.mapTokens f)

/-- Token relabelling of a for-in statement. -/
def ForInStmt.mapTokens (f : Slice → Slice) : ForInStmt → ForInStmt
| .mk keyword_for open_paren left keyword_in right close_paren body =>
    .mk (f keyword_for) (f open_paren) left (f keyword_in) right
      (f close_paren) (body.mapTokens f)

/-- Token relabelling of a for-of statement. -/
def ForOfStmt.mapTokens (f : Slice → Slice) : ForOfStmt → ForOfStmt
| .mk keyword_for open_paren left keyword_of right close_paren body is_await =>
    .mk (f keyword_for) (f open_paren) left (f keyword_of) right
      (f close_paren) (body.mapTokens f) is_await

end

theorem entriesToAllocated_mapTokens (f : Slice → Slice) :
    ∀ l : List ListEntry,
      entriesToAllocated (l.map (ListEntry.mapTokens f)) = entriesToAllocated l
  | [] => rfl
  | e :: rest => by
      simp only [List.map_cons, entriesToAllocated, ListEntry.mapTokens,
        entriesToAllocated_mapTokens f rest]

theorem LoopInit.toAllocated_mapTokens_loopinit (f : Slice → Slice) :
    ∀ i : LoopInit, (i.mapTokens f).toAllocated = i.toAllocated
  | .Expr e => rfl
  | .Variable kind decls => by
      simp [LoopInit.mapTokens, LoopInit.toAllocated, List.map_map,
        Function.comp, ListEntry.mapTokens]

mutual

theorem Stmt.toAllocated_mapTokens_stmt :
    ∀ (f : Slice → Slice) (s : Stmt), (s.mapTokens f).toAllocated = s.toAllocated
  | f, .Expr e semi => rfl
  | f, .Block b => congrArg AStmt.Block (BlockStmt.toAllocated_mapTokens_block f b)
  | f, .Empty s => rfl
  | f, .Debugger k semi => rfl
  | f, .With w => congrArg AStmt.With (WithStmt.toAllocated_mapTokens_withs f w)
  | f, .Return k v semi => rfl
  | f, .Labeled l => congrArg AStmt.Labeled (LabeledStmt.toAllocated_mapTokens_labeled f l)
  | f, .Break k lbl semi => rfl
  | f, .Continue k lbl semi => rfl
  | f, .If i => congrArg AStmt.If (IfStmt.toAllocated_mapTokens_ifs f i)
  | f, .Switch sw => congrArg AStmt.Switch (SwitchStmt.toAllocated_mapTokens_switch f sw)
  | f, .Throw k e semi => rfl
  | f, .Try t => congrArg AStmt.Try (TryStmt.toAllocated_mapTokens_trys f t)
  | f, .While w => congrArg AStmt.While (WhileStmt.toAllocated_mapTokens_whiles f w)
  | f, .DoWhile d => congrArg AStmt.DoWhile (DoWhileStmt.toAllocated_mapTokens_dowhile f d)
  | f, .For fo => congrArg AStmt.For (ForStmt.toAllocated_mapTokens_fors f fo)
  | f, .ForIn fo => congrArg AStmt.ForIn (ForInStmt.toAllocated_mapTokens_forin f fo)
  | f, .ForOf fo => congrArg AStmt.ForOf (ForOfStmt.toAllocated_mapTokens_forof f fo)
  | f, .Var ds semi => by
      simp only [Stmt.mapTokens, Stmt.toAllocated, VarDecls.mapTokens,
        entriesToAllocated_mapTokens]

theorem ProgramPart.toAllocated_mapTokens_part :
    ∀ (f : Slice → Slice) (p : ProgramPart),
      (p.mapTokens f).toAllocated = p.toAllocated
  | f, .Decl d => rfl
  | f, .Stmt s => congrArg AProgramPart.Stmt (Stmt.toAllocated_mapTokens_stmt f s)

theorem partsToAllocated_mapTokens :
    ∀ (f : Slice → Slice) (l : List ProgramPart),
      partsToAllocated (partsMapTokens f l) = partsToAllocated l
  | f, [] => rfl
  | f, p :: rest => by
      simp only [partsMapTokens, partsToAllocated,
        ProgramPart.toAllocated_mapTokens_part f p, partsToAllocated_mapTokens f rest]

theorem BlockStmt.toAllocated_mapTokens_block :
    ∀ (f : Slice → Slice) (b : BlockStmt),
      (b.mapTokens f).toAllocated = b.toAllocated
  | f, .mk ob ps cb => congrArg ABlockStmt.mk (partsToAllocated_mapTokens f ps)

theorem WithStmt.toAllocated_mapTokens_withs :
    ∀ (f : Slice → Slice) (w : WithStmt),
      (w.mapTokens f).toAllocated = w.toAllocated
  | f, .mk k op obj cp body =>
      congrArg (AWithStmt.mk obj.toAllocated) (Stmt.toAllocated_mapTokens_stmt f body)

theorem LabeledStmt.toAllocated_mapTokens_labeled :
    ∀ (f : Slice → Slice) (l : LabeledStmt),
      (l.mapTokens f).toAllocated = l.toAllocated
  | f, .mk lbl colon body =>
      congrArg (ALabeledStmt.mk lbl.toAllocated) (Stmt.toAllocated_mapTokens_stmt f body)

theorem IfStmt.toAllocated_mapTokens_ifs :
    ∀ (f : Slice → Slice) (i : IfStmt),
      (i.mapTokens f).toAllocated = i.toAllocated
  | f, .mk k op t cp cons none => by
      simp only [IfStmt.mapTokens, IfStmt.toAllocated,
        Stmt.toAllocated_mapTokens_stmt f cons]
  | f, .mk k op t cp cons (some (.mk ke body)) => by
      simp only [IfStmt.mapTokens, IfStmt.toAllocated, ElseStmt.mapTokens,
        Stmt.toAllocated_mapTokens_stmt f cons, Stmt.toAllocated_mapTokens_stmt f body]

theorem SwitchStmt.toAllocated_mapTokens_switch :
    ∀ (f : Slice → Slice) (sw : SwitchStmt),
      (sw.mapTokens f).toAllocated = sw.toAllocated
  | f, .mk k op d cp ob cs cb =>
      congrArg (ASwitchStmt.mk d.toAllocated) (casesToAllocated_mapTokens f cs)

theorem casesToAllocated_mapTokens :
    ∀ (f : Slice → Slice) (l : List SwitchCase),
      casesToAllocated (casesMapTokens f l) = casesToAllocated l
  | f, [] => rfl
  | f, c :: rest => by
      simp only [casesMapTokens, casesToAllocated,
        SwitchCase.toAllocated_mapTokens_case f c, casesToAllocated_mapTokens f rest]

theorem SwitchCase.toAllocated_mapTokens_case :
    ∀ (f : Slice → Slice) (c : SwitchCase),
      (c.mapTokens f).toAllocated = c.toAllocated
  | f, .mk k (some t) colon cons =>
      congrArg (ASwitchCase.mk (some t.toAllocated)) (partsToAllocated_mapTokens f cons)
  | f, .mk k none colon cons =>
      congrArg (ASwitchCase.mk none) (partsToAllocated_mapTokens f cons)

theorem TryStmt.toAllocated_mapTokens_trys :
    ∀ (f : Slice → Slice) (t : TryStmt),
      (t.mapTokens f).toAllocated = t.toAllocated
  | f, .mk k blk none none => by
      simp only [TryStmt.mapTokens, TryStmt.toAllocated,
        BlockStmt.toAllocated_mapTokens_block f blk]
  | f, .mk k blk (some c) none => by
      simp only [TryStmt.mapTokens, TryStmt.toAllocated,
        BlockStmt.toAllocated_mapTokens_block f blk,
        CatchClause.toAllocated_mapTokens_catch f c]
  | f, .mk k blk none (some fin) => by
      simp only [TryStmt.mapTokens, TryStmt.toAllocated,
        BlockStmt.toAllocated_mapTokens_block f blk,
        FinallyClause.toAllocated_mapTokens_finally f fin]
  | f, .mk k blk (some c) (some fin) => by
      simp only [TryStmt.mapTokens, TryStmt.toAllocated,
        BlockStmt.toAllocated_mapTokens_block f blk,
        CatchClause.toAllocated_mapTokens_catch f c,
        FinallyClause.toAllocated_mapTokens_finally f fin]

theorem CatchClause.toAllocated_mapTokens_catch :
    ∀ (f : Slice → Slice) (c : CatchClause),
      (c.mapTokens f).toAllocated = c.toAllocated
  | f, .mk k (some a) body => by
      simp only [CatchClause.mapTokens, CatchClause.toAllocated,
        Option.map_some', CatchArg.mapTokens,
        BlockStmt.toAllocated_mapTokens_block f body]
  | f, .mk k none body => by
      simp only [CatchClause.mapTokens, CatchClause.toAllocated,
        Option.map_none', BlockStmt.toAllocated_mapTokens_block f body]

theorem FinallyClause.toAllocated_mapTokens_finally :
    ∀ (f : Slice → Slice) (c : FinallyClause),
      (c.mapTokens f).toAllocated = c.toAllocated
  | f, .mk k body => BlockStmt.toAllocated_mapTokens_block f body

theorem WhileStmt.toAllocated_mapTokens_whiles :
    ∀ (f : Slice → Slice) (w : WhileStmt),
      (w.mapTokens f).toAllocated = w.toAllocated
  | f, .mk k op t cp body =>
      congrArg (AWhileStmt.mk t.toAllocated) (Stmt.toAllocated_mapTokens_stmt f body)

theorem DoWhileStmt.toAllocated_mapTokens_dowhile :
    ∀ (f : Slice → Slice) (d : DoWhileStmt),
      (d.mapTokens f).toAllocated = d.toAllocated
  | f, .mk kd body kw op t cp semi =>
      congrArg (ADoWhileStmt.mk t.toAllocated) (Stmt.toAllocated_mapTokens_stmt f body)

theorem ForStmt.toAllocated_mapTokens_fors :
    ∀ (f : Slice → Slice) (fo : ForStmt),
      (fo.mapTokens f).toAllocated = fo.toAllocated
  | f, .mk k op init s1 t s2 u cp body => by
      cases init <;>
        simp only [ForStmt.mapTokens, ForStmt.toAllocated, Option.map_none',
          Option.map_some', LoopInit.toAllocated_mapTokens_loopinit,
          Stmt.toAllocated_mapTokens_stmt f body]

theorem ForInStmt.toAllocated_mapTokens_forin :
    ∀ (f : Slice → Slice) (fo : ForInStmt),
      (fo.mapTokens f).toAllocated = fo.toAllocated
  | f, .mk kf op left ki right cp body =>
      congrArg (AForInStmt.mk left.toAllocated right.toAllocated)
        (Stmt.toAllocated_mapTokens_stmt f body)

theorem ForOfStmt.toAllocated_mapTokens_forof :
    ∀ (f : Slice → Slice) (fo : ForOfStmt),
      (fo.mapTokens f).toAllocated = fo.toAllocated
  | f, .mk kf op left ko right cp body aw => by
      simp only [ForOfStmt.mapTokens, ForOfStmt.toAllocated,
        Stmt.toAllocated_mapTokens_stmt f body]

end

/-- A list entry is well formed when its declarator location is proper. -/
def ListEntry.wf (e : ListEntry) : Bool := e.item.loc.proper

theorem ListEntry.wf_loc_listentry (e : ListEntry) (h : e.wf = true) :
    e.loc.start ≤ e.loc.stop := by
  simpa [ListEntry.wf, ListEntry.loc, SourceLocation.proper] using h

theorem partsToAllocated_length :
    ∀ l : List ProgramPart, (partsToAllocated l).length = l.length
  | [] => rfl
  | p :: rest => by
      simp [partsToAllocated, partsToAllocated_length rest]

theorem partsToAllocated_getElem? :
    ∀ (l : List ProgramPart) (n : Nat),
      (partsToAllocated l)[n]? = (l[n]?).map ProgramPart.toAllocated
  | [], n => by simp [partsToAllocated]
  | p :: rest, 0 => by simp [partsToAllocated]
  | p :: rest, n + 1 => by
      simp [partsToAllocated, partsToAllocated_getElem? rest n]

theorem casesToAllocated_length :
    ∀ l : List SwitchCase, (casesToAllocated l).length = l.length
  | [] => rfl
  | c :: rest => by
      simp [casesToAllocated, casesToAllocated_length rest]

theorem casesToAllocated_getElem? :
    ∀ (l : List SwitchCase) (n : Nat),
      (casesToAllocated l)[n]? = (l[n]?).map SwitchCase.toAllocated
  | [], n => by simp [casesToAllocated]
  | c :: rest, 0 => by simp [casesToAllocated]
  | c :: rest, n + 1 => by
      simp [casesToAllocated, casesToAllocated_getElem? rest n]

theorem entriesToAllocated_length :
    ∀ l : List ListEntry, (entriesToAllocated l).length = l.length
  | [] => rfl
  | e :: rest => by
      simp [entriesToAllocated, entriesToAllocated_length rest]

theorem entriesToAllocated_getElem? :
    ∀ (l : List ListEntry) (n : Nat),
      (entriesToAllocated l)[n]? = (l[n]?).map (fun e => e.item.toAllocated)
  | [], n => by simp [entriesToAllocated]
  | e :: rest, 0 => by simp [entriesToAllocated]
  | e :: rest, n + 1 => by
      simp [entriesToAllocated, entriesToAllocated_getElem? rest n]

theorem Stmt.toAllocated_setSemi (s : Stmt) (o : Option Slice) :
    (s.setSemi o).toAllocated = s.toAllocated := by
  cases s
  case DoWhile inner => cases inner; rfl
  all_goals rfl

theorem Stmt.tag_toAllocated (s : Stmt) : s.toAllocated.tag = s.tag := by
  cases s
  case Return k v semi => cases v <;> rfl
  case Break k lbl semi => cases lbl <;> rfl
  case Continue k lbl semi => cases lbl <;> rfl
  all_goals rfl

/-- Modelled from the spec: the `role` keyword token
(`tokens::Role` in the parent crate) with its intrinsic location. -/
structure RoleToken where
  loc : SourceLocation
deriving DecidableEq, Repr

/-- Modelled from the spec: the opening-brace token. -/
structure OpenBrace where
  loc : SourceLocation
deriving DecidableEq, Repr

/-- Modelled from the spec: the closing-brace token. -/
structure CloseBrace where
  loc : SourceLocation
deriving DecidableEq, Repr

/-- Modelled from the spec: the generic identifier node (`Ident<T>`)
used by the role container; it carries a location and its name
content. -/
structure DciIdent (T : Type) where
  loc : SourceLocation
  name : T
deriving DecidableEq, Repr

/-- Modelled from the spec: `IntoAllocated for Ident` converts the
borrowed content to an owned string and keeps the rest. -/
def DciIdent.into_allocated {T : Type} [ToString T] (i : DciIdent T) :
    DciIdent String :=
  ⟨i.loc, toString i.name⟩

/-- Modelled from the spec: a key/value property entry
(`Prop<T>` in `crate::expr`; `Prop` is reserved in Lean). -/
structure Prp (T : Type) where
  loc : SourceLocation
  key : T
  value : T
deriving DecidableEq, Repr

/-- Modelled from the spec: `IntoAllocated for Prop` converts the
borrowed content to owned strings and keeps the rest. -/
def Prp.into_allocated {T : Type} [ToString T] (p : Prp T) : Prp String :=
  ⟨p.loc, toString p.key, toString p.value⟩

namespace dci

/-- The spanned role body (`RoleBody` in `src/spanned/dci.rs` lines
45–49): open brace, ordered property list, close brace. -/
structure RoleBody (T : Type) where
  open_brace : OpenBrace
  props : List (Prp T)
  close_brace : CloseBrace
deriving DecidableEq, Repr

/-- `IntoAllocated for RoleBody` (`src/spanned/dci.rs` lines 51–67):
both braces are carried over; the properties are converted in order. -/
def RoleBody.into_allocated {T : Type} [ToString T] (b : RoleBody T) :
    RoleBody String :=
  ⟨b.open_brace, b.props.map Prp.into_allocated, b.close_brace⟩

/-- The spanned role container (`Role` in `src/spanned/dci.rs` lines
12–18): leading keyword, optional identifier, brace-delimited body. -/
structure Role (T : Type) where
  keyword : RoleToken
  id : Option (DciIdent T)
  body : RoleBody T
deriving DecidableEq, Repr

/-- `IntoAllocated for Role` (`src/spanned/dci.rs` lines 20–32): the
keyword is carried over; the identifier and body are converted. -/
def Role.into_allocated {T : Type} [ToString T] (r : Role T) : Role String :=
  ⟨r.keyword, r.id.map DciIdent.into_allocated, r.body.into_allocated⟩

/-- `Node for Role` (`src/spanned/dci.rs` lines 34–41): keyword start
through closing-brace end. -/
def Role.loc {T : Type} (r : Role T) : SourceLocation :=
  ⟨r.keyword.loc.start, r.body.close_brace.loc.stop⟩

end dci

namespace dcia

/-- The allocated role body (`RoleBody` in `src/dci.rs` lines 26–28): a
bare ordered property list, no braces. -/
structure RoleBody (T : Type) where
  props : List (Prp T)
deriving DecidableEq, Repr

/-- `IntoAllocated for RoleBody` (`src/dci.rs` lines 30–44). -/
def RoleBody.into_allocated {T : Type} [ToString T] (b : RoleBody T) :
    RoleBody String :=
  ⟨b.props.map Prp.into_allocated⟩

/-- The allocated role container (`Role` in `src/dci.rs` lines 5–10):
optional identifier and body only, no keyword. -/
structure Role (T : Type) where
  id : Option (DciIdent T)
  body : RoleBody T
deriving DecidableEq, Repr

/-- `IntoAllocated for Role` (`src/dci.rs` lines 12–24). -/
def Role.into_allocated {T : Type} [ToString T] (r : Role T) : Role String :=
  ⟨r.id.map DciIdent.into_allocated, r.body.into_allocated⟩

end dcia

/-- A concrete spanned role, `role name { a: 1, b: 2 }`. -/
def roleExA : dci.Role String :=
  ⟨⟨⟨0, 4⟩⟩, some ⟨⟨5, 9⟩, "name"⟩,
    ⟨⟨⟨10, 11⟩⟩, [⟨⟨12, 16⟩, "a", "1"⟩, ⟨⟨18, 22⟩, "b", "2"⟩], ⟨⟨23, 24⟩⟩⟩⟩

/-- The same role with a different keyword token and identical
identifier and property sequence. -/
def roleExB : dci.Role String :=
  ⟨⟨⟨1, 4⟩⟩, some ⟨⟨5, 9⟩, "name"⟩,
    ⟨⟨⟨10, 11⟩⟩, [⟨⟨12, 16⟩, "a", "1"⟩, ⟨⟨18, 22⟩, "b", "2"⟩], ⟨⟨23, 24⟩⟩⟩⟩

/-- A concrete well-formed statement used as the invariant witness:
`while (x) { return y; }`. -/
def stmtEx : Stmt :=
  .While (.mk ⟨⟨0, 5⟩⟩ ⟨⟨6, 7⟩⟩ ⟨⟨7, 11⟩, 0⟩ ⟨⟨11, 12⟩⟩
    (.Block (.mk ⟨⟨13, 14⟩⟩
      [.Stmt (.Return ⟨⟨15, 21⟩⟩ (some ⟨⟨22, 23⟩, 1⟩) (some ⟨⟨23, 24⟩⟩))]
      ⟨⟨25, 26⟩⟩)))

/-- Claim C1: for every spanned Switch statement, `loc()` returns start
equal to the `switch` keyword start and end equal to the closing
parenthesis of the discriminant, excluding the case list, open brace
and close brace, regardless of how many cases are present. -/
theorem claim1_switch_loc :
    ∀ sw : SwitchStmt,
      (Stmt.Switch sw).loc
          = ⟨sw.keyword.loc.start, sw.close_paren.loc.stop⟩
        ∧ sw.loc = ⟨sw.keyword.loc.start, sw.close_paren.loc.stop⟩ := by
  intro sw
  rcases sw with ⟨k, op, d, cp, ob, cs, cb⟩
  exact ⟨rfl, rfl⟩

/-- Claim C2, counterexample: the spanned role conversion does not
retain only the identifier and the property sequence — two roles with
identical identifier and identical property sequence but different
keyword tokens convert to different allocated values, because the
keyword (and both braces) are carried over verbatim. -/
theorem claim2_counterexample :
    roleExA.id = roleExB.id
      ∧ roleExA.body.props = roleExB.body.props
      ∧ dci.Role.into_allocated roleExA ≠ dci.Role.into_allocated roleExB := by
  refine ⟨rfl, rfl, ?_⟩
  decide

/-- Claim C2, amended: converting a spanned role container carries the
leading keyword and both braces over unchanged, and retains the
optional identifier and the converted property sequence in original
order. -/
theorem claim2_amended :
    ∀ (T : Type) [inst : ToString T] (r : dci.Role T),
      (r.into_allocated).keyword = r.keyword
        ∧ (r.into_allocated).body.open_brace = r.body.open_brace
        ∧ (r.into_allocated).body.close_brace = r.body.close_brace
        ∧ (r.into_allocated).id = r.id.map DciIdent.into_allocated
        ∧ (r.into_allocated).body.props = r.body.props.map Prp.into_allocated := by
  intro T inst r
  exact ⟨rfl, rfl, rfl, rfl, rfl⟩

/-- Claim C3: for every constructed node, leaf or composite, whose
components are properly ordered in the source (the guarantee the
trusted upstream parser provides), the location returned by `loc()`
satisfies `start ≤ end`. -/
theorem claim3_loc_start_le_stop :
    (∀ s : Stmt, s.wf = true → s.loc.start ≤ s.loc.stop)
      ∧ (∀ p : ProgramPart, p.wf = true → p.loc.start ≤ p.loc.stop)
      ∧ (∀ b : BlockStmt, b.wf = true → b.loc.start ≤ b.loc.stop)
      ∧ (∀ w : WithStmt, w.wf = true → w.loc.start ≤ w.loc.stop)
      ∧ (∀ l : LabeledStmt, l.wf = true → l.loc.start ≤ l.loc.stop)
      ∧ (∀ i : IfStmt, i.wf = true → i.loc.start ≤ i.loc.stop)
      ∧ (∀ e : ElseStmt, e.wf = true → e.loc.start ≤ e.loc.stop)
      ∧ (∀ sw : SwitchStmt, sw.wf = true → sw.loc.start ≤ sw.loc.stop)
      ∧ (∀ c : SwitchCase, c.wf = true → c.loc.start ≤ c.loc.stop)
      ∧ (∀ t : TryStmt, t.wf = true → t.loc.start ≤ t.loc.stop)
      ∧ (∀ c : CatchClause, c.wf = true → c.loc.start ≤ c.loc.stop)
      ∧ (∀ f : FinallyClause, f.wf = true → f.loc.start ≤ f.loc.stop)
      ∧ (∀ w : WhileStmt, w.wf = true → w.loc.start ≤ w.loc.stop)
      ∧ (∀ d : DoWhileStmt, d.wf = true → d.loc.start ≤ d.loc.stop)
      ∧ (∀ f : ForStmt, f.wf = true → f.loc.start ≤ f.loc.stop)
      ∧ (∀ f : ForInStmt, f.wf = true → f.loc.start ≤ f.loc.stop)
      ∧ (∀ f : ForOfStmt, f.wf = true → f.loc.start ≤ f.loc.stop)
      ∧ (∀ i : LoopInit, i.wf = true → i.loc.start ≤ i.loc.stop)
      ∧ (∀ l : LoopLeft, l.wf = true → l.loc.start ≤ l.loc.stop)
      ∧ (∀ c : CatchArg, c.wf = true → c.loc.start ≤ c.loc.stop)
      ∧ (∀ d : VarDecls, d.wf = true → d.loc.start ≤ d.loc.stop)
      ∧ (∀ e : ListEntry, e.wf = true → e.loc.start ≤ e.loc.stop)
      ∧ (∀ s : Slice, s.wf = true → s.loc.start ≤ s.loc.stop) :=
  ⟨Stmt.wf_loc_stmt, ProgramPart.wf_loc_part, BlockStmt.wf_loc_block, WithStmt.wf_loc_withs,
    LabeledStmt.wf_loc_labeled, IfStmt.wf_loc_ifs, ElseStmt.wf_loc_elses, SwitchStmt.wf_loc_switch,
    SwitchCase.wf_loc_case, TryStmt.wf_loc_trys, CatchClause.wf_loc_catch,
    FinallyClause.wf_loc_finally, WhileStmt.wf_loc_whiles, DoWhileStmt.wf_loc_dowhile,
    ForStmt.wf_loc_fors, ForInStmt.wf_loc_forin, ForOfStmt.wf_loc_forof, LoopInit.wf_loc_loopinit,
    LoopLeft.wf_loc_loopleft, CatchArg.wf_loc_catcharg, VarDecls.wf_loc_vardecls, ListEntry.wf_loc_listentry,
    Slice.wf_loc_slice⟩

/-- Claim C3, witness: a concrete well-formed nested statement on which
the invariant theorem applies. -/
theorem claim3_witness :
    stmtEx.wf = true ∧ stmtEx.loc.start ≤ stmtEx.loc.stop :=
  ⟨by decide, claim3_loc_start_le_stop.1 stmtEx (by decide)⟩

/-- Claim C4: conversion yields the identically-tagged allocated
variant, preserves child count and sibling order in every sequence
position (block bodies, switch cases, case consequents, declarator
lists), and the result is independent of every delimiter, keyword and
terminator token. -/
theorem claim4_conversion_shape :
    (∀ s : Stmt, s.toAllocated.tag = s.tag)
      ∧ (∀ b : BlockStmt,
          (b.toAllocated).stmts.length = b.stmts.length
            ∧ ∀ n : Nat,
                (b.toAllocated).stmts[n]?
                  = (b.stmts[n]?).map ProgramPart.toAllocated)
      ∧ (∀ sw : SwitchStmt,
          (sw.toAllocated).cases.length = sw.cases.length
            ∧ ∀ n : Nat,
                (sw.toAllocated).cases[n]?
                  = (sw.cases[n]?).map SwitchCase.toAllocated)
      ∧ (∀ c : SwitchCase,
          (c.toAllocated).consequent.length = c.consequent.length
            ∧ ∀ n : Nat,
                (c.toAllocated).consequent[n]?
                  = (c.consequent[n]?).map ProgramPart.toAllocated)
      ∧ (∀ (ds : VarDecls) (semi : Option Slice),
          Stmt.toAllocated (.Var ds semi) = AStmt.Var (entriesToAllocated ds.decls)
            ∧ (entriesToAllocated ds.decls).length = ds.decls.length
            ∧ ∀ n : Nat,
                (entriesToAllocated ds.decls)[n]?
                  = (ds.decls[n]?).map (fun e => e.item.toAllocated))
      ∧ (∀ (f : Slice → Slice) (s : Stmt),
          (s.mapTokens f).toAllocated = s.toAllocated) := by
  refine ⟨Stmt.tag_toAllocated, ?_, ?_, ?_, ?_, ?_⟩
  · intro b
    rcases b with ⟨ob, ps, cb⟩
    exact ⟨partsToAllocated_length ps, fun n => partsToAllocated_getElem? ps n⟩
  · intro sw
    rcases sw with ⟨k, op, d, cp, ob, cs, cb⟩
    exact ⟨casesToAllocated_length cs, fun n => casesToAllocated_getElem? cs n⟩
  · intro c
    rcases c with ⟨k, t, colon, cons⟩
    cases t <;>
      exact ⟨partsToAllocated_length cons, fun n => partsToAllocated_getElem? cons n⟩
  · intro ds semi
    exact ⟨rfl, entriesToAllocated_length ds.decls,
      fun n => entriesToAllocated_getElem? ds.decls n⟩
  · intro f s
    exact Stmt.toAllocated_mapTokens_stmt f s

/-- Claim C5: a Return statement ends at the terminator when present,
else at the value when present, else at the keyword; a Throw statement
ends at the terminator when present, else at the thrown expression;
both start at the keyword. -/
theorem claim5_return_throw_loc :
    (∀ (k : Slice) (v : Option Expr) (s : Slice),
        (Stmt.Return k v (some s)).loc = ⟨k.loc.start, s.loc.stop⟩)
      ∧ (∀ (k : Slice) (v : Expr),
          (Stmt.Return k (some v) none).loc = ⟨k.loc.start, v.loc.stop⟩)
      ∧ (∀ k : Slice, (Stmt.Return k none none).loc = k.loc)
      ∧ (∀ (k : Slice) (e : Expr) (s : Slice),
          (Stmt.Throw k e (some s)).loc = ⟨k.loc.start, s.loc.stop⟩)
      ∧ (∀ (k : Slice) (e : Expr),
          (Stmt.Throw k e none).loc = ⟨k.loc.start, e.loc.stop⟩) :=
  ⟨fun _ _ _ => rfl, fun _ _ => rfl, fun _ => rfl, fun _ _ _ => rfl,
    fun _ _ => rfl⟩

/-- Claim C6: a Try statement starts at the `try` keyword and ends at
the finalizer when present, else at the catch handler when present,
else at the try block. -/
theorem claim6_try_loc :
    (∀ (k : Slice) (blk : BlockStmt) (hd : Option CatchClause)
        (f : FinallyClause),
        (Stmt.Try (.mk k blk hd (some f))).loc = ⟨k.loc.start, f.loc.stop⟩)
      ∧ (∀ (k : Slice) (blk : BlockStmt) (c : CatchClause),
          (Stmt.Try (.mk k blk (some c) none)).loc = ⟨k.loc.start, c.loc.stop⟩)
      ∧ (∀ (k : Slice) (blk : BlockStmt),
          (Stmt.Try (.mk k blk none none)).loc = ⟨k.loc.start, blk.loc.stop⟩) :=
  ⟨fun _ _ _ _ => rfl, fun _ _ _ => rfl, fun _ _ => rfl⟩

/-- Claim C7: two spanned statements that differ only in their optional
trailing terminator slot convert to equal allocated trees — the
allocated form cannot tell whether a terminator was present. -/
theorem claim7_terminator_erased :
    ∀ (s : Stmt) (o₁ o₂ : Option Slice),
      (s.setSemi o₁).toAllocated = (s.setSemi o₂).toAllocated := by
  intro s o₁ o₂
  rw [Stmt.toAllocated_setSemi, Stmt.toAllocated_setSemi]

/-- Claim C8: an If statement starts at the `if` keyword and ends at
the alternate clause when present, else at the consequent; conversion
produces an allocated If whose consequent and alternate are the
converted bodies, the else-clause wrapper unwrapped, keywords and
parentheses dropped. -/
theorem claim8_if_loc_conversion :
    (∀ (k op : Slice) (t : Expr) (cp : Slice) (cons : Stmt) (e : ElseStmt),
        (Stmt.If (.mk k op t cp cons (some e))).loc = ⟨k.loc.start, e.loc.stop⟩)
      ∧ (∀ (k op : Slice) (t : Expr) (cp : Slice) (cons : Stmt),
          (Stmt.If (.mk k op t cp cons none)).loc
            = ⟨k.loc.start, cons.loc.stop⟩)
      ∧ (∀ (k op : Slice) (t : Expr) (cp : Slice) (cons : Stmt)
          (ek : Slice) (eb : Stmt),
          Stmt.toAllocated (.If (.mk k op t cp cons (some (.mk ek eb))))
            = .If (.mk t.toAllocated cons.toAllocated (some eb.toAllocated)))
      ∧ (∀ (k op : Slice) (t : Expr) (cp : Slice) (cons : Stmt),
          Stmt.toAllocated (.If (.mk k op t cp cons none))
            = .If (.mk t.toAllocated cons.toAllocated none)) :=
  ⟨fun _ _ _ _ _ _ => rfl, fun _ _ _ _ _ => rfl,
    fun _ _ _ _ _ _ _ => rfl, fun _ _ _ _ _ => rfl⟩

/-- Claim C9: a DoWhile statement starts at the `do` keyword and ends
at the closing parenthesis of the while-test, including when the
optional trailing semicolon is present — the semicolon never extends
the span. -/
theorem claim9_dowhile_loc :
    (∀ (kd : Slice) (body : Stmt) (kw op : Slice) (t : Expr) (cp : Slice)
        (semi : Option Slice),
        (Stmt.DoWhile (.mk kd body kw op t cp semi)).loc
          = ⟨kd.loc.start, cp.loc.stop⟩)
      ∧ (∀ (kd : Slice) (body : Stmt) (kw op : Slice) (t : Expr)
          (cp : Slice) (s : Slice),
          (Stmt.DoWhile (.mk kd body kw op t cp (some s))).loc
            = ⟨kd.loc.start, cp.loc.stop⟩) :=
  ⟨fun _ _ _ _ _ _ _ => rfl, fun _ _ _ _ _ _ _ => rfl⟩

/-- Claim C10: converting a spanned ForOf statement preserves the
`is_await` flag exactly. -/
theorem claim10_forof_await :
    ∀ fo : ForOfStmt,
      (fo.toAllocated).is_await = fo.is_await
        ∧ Stmt.toAllocated (.ForOf fo) = .ForOf fo.toAllocated := by
  intro fo
  rcases fo with ⟨kf, op, left, ko, right, cp, body, aw⟩
  exact ⟨rfl, rfl⟩
